import Mathlib

/-!
Shallow embedding of the GitHubIssue operator's reconciliation engine
(src/internal/controller/githubissue_controller.go) together with the
condition-update variant in the controller file that uses
meta.SetStatusCondition (src/unnamed/part_005).

Remote HTTP interactions are abstracted into an environment record `Env`
describing, for one reconcile cycle, what the GitHub API and the Kubernetes
API server would answer; each embedded operation also returns the list of
remote issue-API calls it performed, so that "no create/update call was
made" style properties are statable.  A Go `panic` (nil-pointer dereference,
index out of range) is modelled as the `panicked` constructor, distinct from
an `error` return value.
-/

namespace GithubOperator

/-- Record mirroring the Go struct `IssueResponse` of api/v1alpha1.
`pullRequestLinks` is `some url` when the JSON `pullRequest` field is
present (a non-nil `*PullRequestLinks`), `none` when the pointer is nil. -/
structure IssueResponse where
  url : String
  number : Int
  title : String
  body : String
  state : String
  pullRequestLinks : Option String
deriving Repr, DecidableEq

/-- Record mirroring the Go struct `GitHubIssueSpec` of api/v1alpha1. -/
structure GitHubIssueSpec where
  repo : String
  title : String
  description : String
deriving Repr, DecidableEq

/-- Record mirroring `metav1.Condition` as used by the controller: a typed
boolean condition with reason, message and last-transition timestamp.
Timestamps are abstracted to `Nat` instants. -/
structure Condition where
  condType : String
  status : Bool
  lastTransitionTime : Nat
  reason : String
  message : String
deriving Repr, DecidableEq

/-- Record mirroring the Go struct `GitHubIssue`: its spec, the parts of
ObjectMeta the controller reads (deletion timestamp and finalizer list) and
the status conditions.  `deletionTimestampSet` is the negation of Go's
`ObjectMeta.DeletionTimestamp.IsZero()`. -/
structure GitHubIssue where
  spec : GitHubIssueSpec
  deletionTimestampSet : Bool
  finalizers : List String
  statusConditions : List Condition
deriving Repr, DecidableEq

/-- The finalizer tag constant of githubissue_controller.go. -/
def finalizer : String := "githubIssue.finalizers.my.domain"

/-- One remote issue-API call, as issued by the controller's HTTP layer. -/
inductive RemoteCall where
  | list (owner repo : String)
  | create (owner repo title body : String)
  | update (owner repo : String) (number : Int) (body title : String)
  | close (owner repo : String) (number : Int)
deriving Repr, DecidableEq

/-- Outcome of a Go function call that returns `(T, error)` and may panic:
`ok` is a nil error, `err` a non-nil error (identified by its message), and
`panicked` an unrecovered runtime panic. -/
inductive GoResult (α : Type) where
  | ok : α → GoResult α
  | err : String → GoResult α
  | panicked : String → GoResult α
deriving Repr, DecidableEq

/-- Outcome of one Reconcile invocation: either it returns a
`(ctrl.Result, error)` pair — `done requeueAfterSeconds err` — or it panics. -/
inductive GoOutcome where
  | done (requeueAfterSeconds : Nat) (reconcileError : Option String)
  | panicked (msg : String)
deriving Repr, DecidableEq

/-- Environment of one reconcile cycle: the answers the remote issue service
and the Kubernetes API server give to each kind of call the controller can
make during the cycle, and the current wall-clock instant used for
`metav1.Now()`. -/
structure Env where
  now : Nat
  issues : List IssueResponse
  listOK : Bool
  createOK : Bool
  createResp : IssueResponse
  updateOK : Bool
  updateResp : IssueResponse
  closeOK : Bool
  k8sUpdateOK : Bool
  statusUpdateOK : Bool
deriving Repr, DecidableEq

/-- Go's `strings.Split(s, "/")` on the character list of `s`: splits into
the chunks between slashes; always returns at least one chunk. -/
def splitOnSlash : List Char → List (List Char)
  | [] => [[]]
  | c :: cs =>
    if c = '/' then [] :: splitOnSlash cs
    else
      match splitOnSlash cs with
      | [] => [[c]]
      | h :: t => (c :: h) :: t

/-- Embedding of `GetOwnerAndRepo`: split the spec's repo string on "/" and
index `repoParts[len-2]` and `repoParts[len-1]`.  When the split has fewer
than two parts the Go code indexes position `-1` and panics with an
index-out-of-range runtime error; this is the `none` result. -/
def GetOwnerAndRepo (githubIssue : GitHubIssue) : Option (String × String) :=
  let repoParts := splitOnSlash githubIssue.spec.repo.toList
  match repoParts.reverse with
  | repo :: owner :: _ => some (String.mk owner, String.mk repo)
  | _ => none

/-- Embedding of `FindIssue`: first issue in list order whose title equals
the resource's title (case-sensitive); the issue's state is not consulted. -/
def FindIssue (issues : List IssueResponse) (githubIssue : GitHubIssue) :
    Option IssueResponse :=
  issues.find? (fun issue => issue.title == githubIssue.spec.title)

/-- Embedding of `GetRepositoryIssues`: a GET on the issue collection that
either yields the environment's issue list or fails (client construction,
transport, non-200 status and decode failures are collapsed into
`listOK = false`). -/
def GetRepositoryIssues (env : Env) (owner repo : String) :
    GoResult (List IssueResponse) × List RemoteCall :=
  if env.listOK then
    (GoResult.ok env.issues, [RemoteCall.list owner repo])
  else
    (GoResult.err "failed to list all github issues", [RemoteCall.list owner repo])

/-- Embedding of `HandleIssues`: create when no issue matched, update when
the matched issue's body differs from the spec description, and otherwise do
nothing and return the nil pointer (`none`). -/
def HandleIssues (env : Env) (foundIssue : Option IssueResponse)
    (owner repo : String) (githubIssue : GitHubIssue) :
    GoResult (Option IssueResponse) × List RemoteCall :=
  match foundIssue with
  | none =>
    if env.createOK then
      (GoResult.ok (some env.createResp),
        [RemoteCall.create owner repo githubIssue.spec.title githubIssue.spec.description])
    else
      (GoResult.err "failed to create issue",
        [RemoteCall.create owner repo githubIssue.spec.title githubIssue.spec.description])
  | some found =>
    if found.body != githubIssue.spec.description then
      if env.updateOK then
        (GoResult.ok (some env.updateResp),
          [RemoteCall.update owner repo found.number githubIssue.spec.description githubIssue.spec.title])
      else
        (GoResult.err "failed to update issue",
          [RemoteCall.update owner repo found.number githubIssue.spec.description githubIssue.spec.title])
    else
      (GoResult.ok none, [])

/-- Embedding of `CreateConditions`: builds the `OpenIssue` condition, then
evaluates `issue.PullRequestLinks` on the argument pointer.  When the
argument is nil (the no-op branch of `HandleIssues`), dereferencing it
panics with a nil-pointer runtime error. -/
def CreateConditions (now : Nat) (issue : Option IssueResponse) :
    GoResult (List Condition) :=
  let conditions : List Condition :=
    [{ condType := "OpenIssue", status := true, lastTransitionTime := now,
       reason := "IssueExists", message := "Issue is open" }]
  match issue with
  | none =>
    GoResult.panicked "invalid memory address or nil pointer dereference"
  | some i =>
    if i.pullRequestLinks.isSome then
      GoResult.ok (conditions ++
        [{ condType := "IssueHasPR", status := true, lastTransitionTime := now,
           reason := "IssueHasAPRLink", message := "Issue has a PR" }])
    else
      GoResult.ok (conditions ++
        [{ condType := "IssueHasPR", status := false, lastTransitionTime := now,
           reason := "IssueHasNoNoPR", message := "Issue does not have a PR" }])

/-- Semantics of `controllerutil.ContainsFinalizer`. -/
def containsFinalizer (githubIssue : GitHubIssue) : Bool :=
  githubIssue.finalizers.contains finalizer

/-- Semantics of `controllerutil.AddFinalizer` on an object not containing
the tag: append it. -/
def addFinalizer (githubIssue : GitHubIssue) : GitHubIssue :=
  { githubIssue with finalizers := githubIssue.finalizers ++ [finalizer] }

/-- Semantics of `controllerutil.RemoveFinalizer`: drop every occurrence of
the tag. -/
def removeFinalizer (githubIssue : GitHubIssue) : GitHubIssue :=
  { githubIssue with finalizers := githubIssue.finalizers.filter (fun f => f != finalizer) }

/-- Embedding of `CloseIssue`: list the repository issues, find the one
matching the resource's title, fail with "issue not found" when absent, and
otherwise POST `state: closed` to its number. -/
def CloseIssue (env : Env) (owner repo : String) (githubIssue : GitHubIssue) :
    GoResult Unit × List RemoteCall :=
  match GetRepositoryIssues env owner repo with
  | (GoResult.ok issues, calls) =>
    match FindIssue issues githubIssue with
    | none => (GoResult.err "issue not found", calls)
    | some foundIssue =>
      if env.closeOK then
        (GoResult.ok (), calls ++ [RemoteCall.close owner repo foundIssue.number])
      else
        (GoResult.err "failed to send request", calls ++ [RemoteCall.close owner repo foundIssue.number])
  | (GoResult.err e, calls) => (GoResult.err e, calls)
  | (GoResult.panicked m, calls) => (GoResult.panicked m, calls)

/-- Embedding of `CheckDeletion`.  Returns the Go error result, the resource
object as left in memory by the call, and the remote calls made.  The two
deletion sentinels are ordinary `errors.New` values; note the source's
spelling "handeld" in the first one. -/
def CheckDeletion (env : Env) (githubIssue : GitHubIssue) (owner repo : String) :
    GoResult Unit × GitHubIssue × List RemoteCall :=
  if githubIssue.deletionTimestampSet then
    if containsFinalizer githubIssue then
      match CloseIssue env owner repo githubIssue with
      | (GoResult.ok _, calls) =>
        let updated := removeFinalizer githubIssue
        if env.k8sUpdateOK then
          (GoResult.err "GitHubIssue CR deletion has been handeld", updated, calls)
        else
          (GoResult.err "failed to update GitHubIssue", updated, calls)
      | (GoResult.err e, calls) => (GoResult.err e, githubIssue, calls)
      | (GoResult.panicked m, calls) => (GoResult.panicked m, githubIssue, calls)
    else
      (GoResult.err "GitHubIssue CR may have been deleted", githubIssue, [])
  else
    if containsFinalizer githubIssue then
      (GoResult.ok (), githubIssue, [])
    else
      let updated := addFinalizer githubIssue
      if env.k8sUpdateOK then
        (GoResult.ok (), updated, [])
      else
        (GoResult.err "failed to update GitHubIssue", updated, [])

/-- Semantics of Go's `errors.Unwrap` for the error values this program
constructs: every error reaching the sentinel check in `Reconcile` is a leaf
built by `errors.New` or `fmt.Errorf` without the `%w` verb, and such values
have no `Unwrap` method, so `errors.Unwrap` yields nil. -/
def errorsUnwrap (_ : String) : Option String := none

/-- Semantics of Go's `errors.Is(e, target)` at the sentinel check in
`Reconcile`: the target is freshly allocated there by `errors.New`, so it is
a distinct pointer from every pre-existing error value and, being a leaf,
`errors.Is` only ever compares by interface identity; the comparison
therefore succeeds only in the nil/nil case. -/
def errorsIs : Option String → Option String → Bool
  | none, none => true
  | none, some _ => false
  | some _, none => false
  | some _, some _ => false

/-- Embedding of `Reconcile` from the point where the resource has been
fetched successfully: parse owner/repo, run the deletion check (translating
an error the sentinel test recognises into a clean exit), list and match
remote issues, create-or-update, derive conditions, write status back, and
requeue after one minute (60 seconds) on full success.  Returns the
outcome, the resource object as left by the cycle, and the remote calls. -/
def Reconcile (env : Env) (githubIssue : GitHubIssue) :
    GoOutcome × GitHubIssue × List RemoteCall :=
  match GetOwnerAndRepo githubIssue with
  | none => (GoOutcome.panicked "index out of range", githubIssue, [])
  | some (owner, repo) =>
    match CheckDeletion env githubIssue owner repo with
    | (GoResult.err e, updated, calls) =>
      if errorsIs (errorsUnwrap e) (some "NamespaceLabel CR deletion has been handled") then
        (GoOutcome.done 0 none, updated, calls)
      else
        (GoOutcome.done 0 (some e), updated, calls)
    | (GoResult.panicked m, updated, calls) => (GoOutcome.panicked m, updated, calls)
    | (GoResult.ok _, updated, calls) =>
      match GetRepositoryIssues env owner repo with
      | (GoResult.err e, listCalls) =>
        (GoOutcome.done 0 (some e), updated, calls ++ listCalls)
      | (GoResult.panicked m, listCalls) =>
        (GoOutcome.panicked m, updated, calls ++ listCalls)
      | (GoResult.ok issues, listCalls) =>
        let foundIssue := FindIssue issues updated
        match HandleIssues env foundIssue owner repo updated with
        | (GoResult.err e, handleCalls) =>
          (GoOutcome.done 0 (some e), updated, calls ++ listCalls ++ handleCalls)
        | (GoResult.panicked m, handleCalls) =>
          (GoOutcome.panicked m, updated, calls ++ listCalls ++ handleCalls)
        | (GoResult.ok handledIssue, handleCalls) =>
          match CreateConditions env.now handledIssue with
          | GoResult.panicked m =>
            (GoOutcome.panicked m, updated, calls ++ listCalls ++ handleCalls)
          | GoResult.err e =>
            (GoOutcome.done 0 (some e), updated, calls ++ listCalls ++ handleCalls)
          | GoResult.ok conditions =>
            let written := { updated with statusConditions := conditions }
            if env.statusUpdateOK then
              (GoOutcome.done 60 none, written, calls ++ listCalls ++ handleCalls)
            else
              (GoOutcome.done 0 (some "failed to update GitHubIssue status"), written,
                calls ++ listCalls ++ handleCalls)

/-- Semantics of `meta.SetStatusCondition` from k8s.io/apimachinery as
invoked by the controller variant in src/unnamed/part_005: upsert the
condition by type; when a condition of that type exists and its boolean
status equals the new one, keep the existing last-transition timestamp
while refreshing reason and message; when the status differs, take the new
condition wholesale; when absent, append. -/
def SetStatusCondition (conditions : List Condition) (newCondition : Condition) :
    List Condition :=
  match conditions.find? (fun c => c.condType == newCondition.condType) with
  | none => conditions ++ [newCondition]
  | some existing =>
    conditions.map fun c =>
      if c.condType == newCondition.condType then
        if existing.status != newCondition.status then newCondition
        else { newCondition with lastTransitionTime := existing.lastTransitionTime }
      else c

/-- Embedding of `updateConditions` from the controller variant in
src/unnamed/part_005: build the `OpenIssue` condition and an `IssueHasPR`
condition that defaults to false and flips to true only when the handled
issue is non-nil and carries a pull-request link (no nil dereference), then
upsert both through `SetStatusCondition`. -/
def updateConditions (now : Nat) (githubIssue : GitHubIssue)
    (issue : Option IssueResponse) : GitHubIssue :=
  let openCondition : Condition :=
    { condType := "OpenIssue", status := true, lastTransitionTime := now,
      reason := "IssueExists", message := "Issue is open" }
  let prCondition : Condition :=
    match issue with
    | some i =>
      if i.pullRequestLinks.isSome then
        { condType := "IssueHasPR", status := true, lastTransitionTime := now,
          reason := "IssueHasAPRLink", message := "Issue has a PR" }
      else
        { condType := "IssueHasPR", status := false, lastTransitionTime := now,
          reason := "IssueHasNoPR", message := "Issue does not have a PR" }
    | none =>
      { condType := "IssueHasPR", status := false, lastTransitionTime := now,
        reason := "IssueHasNoPR", message := "Issue does not have a PR" }
  let upserted :=
    SetStatusCondition (SetStatusCondition githubIssue.statusConditions openCondition)
      prCondition
  { githubIssue with statusConditions := upserted }

/-! ### Concrete fixtures used by the evaluation theorems -/

/-- Remote issue whose title and body agree with the base resource's spec. -/
def issueTD : IssueResponse :=
  { url := "https://api.github.com/repos/owner/repo/issues/1", number := 1,
    title := "T", body := "D", state := "open", pullRequestLinks := none }

/-- The same remote issue in state "closed". -/
def issueClosedTD : IssueResponse := { issueTD with state := "closed" }

/-- Base resource: repo "owner/repo", title "T", description "D", not being
deleted, finalizer already present, no conditions yet. -/
def gBase : GitHubIssue :=
  { spec := { repo := "owner/repo", title := "T", description := "D" },
    deletionTimestampSet := false, finalizers := [finalizer], statusConditions := [] }

/-- Base resource before its first reconcile: no finalizer yet. -/
def gFresh : GitHubIssue := { gBase with finalizers := [] }

/-- Benign environment: empty remote issue list, every call succeeds, clock
at instant 1. -/
def envBase : Env :=
  { now := 1, issues := [], listOK := true, createOK := true, createResp := issueTD,
    updateOK := true, updateResp := issueTD, closeOK := true, k8sUpdateOK := true,
    statusUpdateOK := true }

/-- Resource state after a successful creating cycle at instant 1: finalizer
present and both conditions stamped with time 1. -/
def gAfterCreate : GitHubIssue :=
  { gBase with statusConditions :=
      [{ condType := "OpenIssue", status := true, lastTransitionTime := 1,
         reason := "IssueExists", message := "Issue is open" },
       { condType := "IssueHasPR", status := false, lastTransitionTime := 1,
         reason := "IssueHasNoNoPR", message := "Issue does not have a PR" }] }

/-- Resource state after a subsequent updating cycle at instant 2. -/
def gAfterUpdate : GitHubIssue :=
  { gBase with statusConditions :=
      [{ condType := "OpenIssue", status := true, lastTransitionTime := 2,
         reason := "IssueExists", message := "Issue is open" },
       { condType := "IssueHasPR", status := false, lastTransitionTime := 2,
         reason := "IssueHasNoNoPR", message := "Issue does not have a PR" }] }

/-! ### Helper lemmas about splitting on slashes -/

theorem splitOnSlash_ne_nil (l : List Char) : splitOnSlash l ≠ [] := by
  induction l with
  | nil => simp [splitOnSlash]
  | cons c cs ih =>
    simp only [splitOnSlash]
    split
    · simp
    · split
      · simp
      · simp

theorem splitOnSlash_append (xs ys : List Char) :
    splitOnSlash (xs ++ '/' :: ys) = splitOnSlash xs ++ splitOnSlash ys := by
  induction xs with
  | nil => simp [splitOnSlash]
  | cons c cs ih =>
    by_cases hc : c = '/'
    · subst hc
      simp [splitOnSlash, ih]
    · simp only [List.cons_append, splitOnSlash, if_neg hc, List.append_eq]
      rw [ih]
      cases h : splitOnSlash cs with
      | nil => exact absurd h (splitOnSlash_ne_nil cs)
      | cons a t => simp

theorem splitOnSlash_eq_self_of_not_mem (l : List Char) (h : '/' ∉ l) :
    splitOnSlash l = [l] := by
  induction l with
  | nil => simp [splitOnSlash]
  | cons c cs ih =>
    simp only [List.mem_cons, not_or] at h
    obtain ⟨h1, h2⟩ := h
    have hc : ¬ (c = '/') := fun hh => h1 hh.symm
    simp [splitOnSlash, if_neg hc, ih h2]

theorem two_le_length_splitOnSlash (l : List Char) (h : '/' ∈ l) :
    2 ≤ (splitOnSlash l).length := by
  induction l with
  | nil => simp at h
  | cons c cs ih =>
    by_cases hc : c = '/'
    · subst hc
      have hne := splitOnSlash_ne_nil cs
      have hpos : 1 ≤ (splitOnSlash cs).length := List.length_pos.mpr hne
      have hsp : splitOnSlash ('/' :: cs) = [] :: splitOnSlash cs := by
        simp [splitOnSlash]
      rw [hsp, List.length_cons]
      omega
    · have hcs : '/' ∈ cs := by
        rcases List.mem_cons.mp h with h1 | h1
        · exact absurd h1.symm hc
        · exact h1
      have ih2 := ih hcs
      simp only [splitOnSlash, if_neg hc]
      cases hsp : splitOnSlash cs with
      | nil => exact absurd hsp (splitOnSlash_ne_nil cs)
      | cons a t =>
        rw [hsp] at ih2
        simp only [List.length_cons] at ih2 ⊢
        omega

theorem exists_cons_cons_of_two_le_length {α : Type} (L : List α) (h : 2 ≤ L.length) :
    ∃ x y t, L = x :: y :: t := by
  cases L with
  | nil => simp at h
  | cons x M =>
    cases M with
    | nil => simp at h
    | cons y t => exact ⟨x, y, t, rfl⟩

/-! ### Claim theorems -/

/-- C1.  When the remote list already contains an issue whose title and body
match the resource's title and description, `HandleIssues` makes no create
or update call and returns the nil pointer; `CreateConditions` then
dereferences that nil pointer and the cycle panics instead of completing
with condition derivation and status write-back.  The claimed normal
completion is refuted by this evaluation: the outcome is a panic, the
status write never happens, and the only remote call is the list. -/
theorem noop_branch_panics_instead_of_deriving_conditions :
    Reconcile { envBase with issues := [issueTD] } gBase =
      (GoOutcome.panicked "invalid memory address or nil pointer dereference", gBase,
        [RemoteCall.list "owner" "repo"]) := by
  decide

/-- C2.  Both deletion sentinels escape `Reconcile` as real errors: the
sentinel test compares `errors.Unwrap` of a leaf error (always nil) against
a freshly allocated error whose message moreover reads "NamespaceLabel ...
handled" while `CheckDeletion` returns "GitHubIssue ... handeld", so the
test never fires and the claimed clean no-error exit does not happen for
either sentinel. -/
theorem deletion_sentinels_returned_as_errors :
    Reconcile { envBase with issues := [issueTD] } { gBase with deletionTimestampSet := true } =
      (GoOutcome.done 0 (some "GitHubIssue CR deletion has been handeld"),
        { gBase with deletionTimestampSet := true, finalizers := [] },
        [RemoteCall.list "owner" "repo", RemoteCall.close "owner" "repo" 1]) ∧
    Reconcile envBase { gBase with deletionTimestampSet := true, finalizers := [] } =
      (GoOutcome.done 0 (some "GitHubIssue CR may have been deleted"),
        { gBase with deletionTimestampSet := true, finalizers := [] }, []) := by
  decide

/-- C3.  A repo string without a slash makes `GetOwnerAndRepo` index
position `len-2 = -1` of a one-element split, an index-out-of-range panic;
the cycle therefore aborts before any remote call (the call trace is
empty), but by panicking rather than by returning an error as claimed. -/
theorem malformed_repo_panics_before_remote_call :
    GetOwnerAndRepo { gBase with spec := { repo := "not-a-valid-ref", title := "T", description := "D" } } = none ∧
    Reconcile envBase { gBase with spec := { repo := "not-a-valid-ref", title := "T", description := "D" } } =
      (GoOutcome.panicked "index out of range",
        { gBase with spec := { repo := "not-a-valid-ref", title := "T", description := "D" } },
        []) := by
  decide

/-- C5.  Reconciling twice in succession with no spec or remote change: the
first cycle creates the issue and completes; the second cycle finds the
synchronized issue, makes no create or update call and leaves the stored
status conditions untouched, but only because it panics in
`CreateConditions` on the nil no-op result instead of completing the
cycle. -/
theorem second_cycle_noop_panics :
    Reconcile envBase gFresh =
      (GoOutcome.done 60 none, gAfterCreate,
        [RemoteCall.list "owner" "repo", RemoteCall.create "owner" "repo" "T" "D"]) ∧
    Reconcile { envBase with now := 2, issues := [issueTD] } gAfterCreate =
      (GoOutcome.panicked "invalid memory address or nil pointer dereference", gAfterCreate,
        [RemoteCall.list "owner" "repo"]) := by
  decide

/-- C6.  Two successive completing cycles (a create at instant 1, then an
update at instant 2 after external body drift) leave both condition types
with unchanged boolean statuses, yet every last-transition timestamp moves
from 1 to 2: `CreateConditions` stamps the current instant on every
condition and the status write replaces the list wholesale, with no upsert
and no transition suppression. -/
theorem lastTransition_churns_every_cycle :
    Reconcile envBase gBase =
      (GoOutcome.done 60 none, gAfterCreate,
        [RemoteCall.list "owner" "repo", RemoteCall.create "owner" "repo" "T" "D"]) ∧
    Reconcile { envBase with now := 2, issues := [{ issueTD with body := "Old" }] } gAfterCreate =
      (GoOutcome.done 60 none, gAfterUpdate,
        [RemoteCall.list "owner" "repo", RemoteCall.update "owner" "repo" 1 "D" "T"]) ∧
    gAfterCreate.statusConditions.map (fun c => (c.condType, c.status)) =
      gAfterUpdate.statusConditions.map (fun c => (c.condType, c.status)) ∧
    gAfterCreate.statusConditions.map (fun c => c.lastTransitionTime) = [1, 1] ∧
    gAfterUpdate.statusConditions.map (fun c => c.lastTransitionTime) = [2, 2] := by
  decide

/-- C7 counterexample.  A cycle whose issue listing fails returns its error
with a zero requeue interval, not the claimed fixed one-minute interval:
scheduling after one minute happens only on the success path. -/
theorem failed_cycle_requeues_nothing :
    Reconcile { envBase with listOK := false } gBase =
      (GoOutcome.done 0 (some "failed to list all github issues"), gBase,
        [RemoteCall.list "owner" "repo"]) ∧
    GoOutcome.done 0 (some "failed to list all github issues") ≠
      GoOutcome.done 60 (some "failed to list all github issues") := by
  decide

/-- C8 counterexample.  With the matching remote issue in state "closed"
and its body equal to the description, the cycle makes no create, update,
reopen or close call (the trace holds only the list call) — but the derived
status does not report `OpenIssue = true` as claimed: condition derivation
panics on the nil no-op result and the resource keeps no conditions at
all. -/
theorem closed_issue_match_reports_no_status :
    Reconcile { envBase with issues := [issueClosedTD] } gBase =
      (GoOutcome.panicked "invalid memory address or nil pointer dereference", gBase,
        [RemoteCall.list "owner" "repo"]) ∧
    gBase.statusConditions = [] := by
  decide

/-- C10.  When the deletion timestamp is set but the finalizer tag is
absent, `CheckDeletion` returns exactly the "may have been deleted"
sentinel, performs no remote call, and returns the resource object
unchanged in every field. -/
theorem checkDeletion_absent_finalizer_frame (env : Env) (githubIssue : GitHubIssue)
    (owner repo : String)
    (hdel : githubIssue.deletionTimestampSet = true)
    (hfin : containsFinalizer githubIssue = false) :
    CheckDeletion env githubIssue owner repo =
      (GoResult.err "GitHubIssue CR may have been deleted", githubIssue, []) := by
  simp [CheckDeletion, hdel, hfin]

/-- C10 witness: the frame theorem applied to a concrete deleting resource
without the finalizer tag. -/
theorem checkDeletion_absent_finalizer_frame_witness :
    CheckDeletion envBase { gBase with deletionTimestampSet := true, finalizers := [] }
        "owner" "repo" =
      (GoResult.err "GitHubIssue CR may have been deleted",
        { gBase with deletionTimestampSet := true, finalizers := [] }, []) :=
  checkDeletion_absent_finalizer_frame envBase
    { gBase with deletionTimestampSet := true, finalizers := [] }
    "owner" "repo" (by decide) (by decide)

/-- C4.  With the deletion timestamp set and the finalizer tag present, the
finalizer is removed only after `CloseIssue` succeeded: whenever
`CloseIssue` returns an error, `CheckDeletion` propagates exactly that
error and returns the resource unchanged (finalizer set intact), and
`Reconcile` returns the same error to its caller; conversely, if the
resource coming out of `CheckDeletion` no longer carries the finalizer,
`CloseIssue` must have returned success. -/
theorem finalizer_kept_when_closeIssue_fails (env : Env) (g : GitHubIssue)
    (owner repo : String)
    (hdel : g.deletionTimestampSet = true)
    (hfin : containsFinalizer g = true) :
    (∀ e, (CloseIssue env owner repo g).1 = GoResult.err e →
        CheckDeletion env g owner repo = (GoResult.err e, g, (CloseIssue env owner repo g).2) ∧
        (GetOwnerAndRepo g = some (owner, repo) →
          (Reconcile env g).1 = GoOutcome.done 0 (some e))) ∧
    (containsFinalizer (CheckDeletion env g owner repo).2.1 = false →
        (CloseIssue env owner repo g).1 = GoResult.ok ()) := by
  constructor
  · intro e he
    rcases hc : CloseIssue env owner repo g with ⟨res, closeCalls⟩
    rw [hc] at he
    simp only at he
    subst he
    have hcd : CheckDeletion env g owner repo = (GoResult.err e, g, closeCalls) := by
      simp [CheckDeletion, hdel, hfin, hc]
    constructor
    · simp [hcd]
    · intro hparse
      simp [Reconcile, hparse, hcd, errorsIs, errorsUnwrap]
  · intro habs
    rcases hc : CloseIssue env owner repo g with ⟨res, closeCalls⟩
    cases res with
    | ok u => simp
    | err e =>
      have hcd : CheckDeletion env g owner repo = (GoResult.err e, g, closeCalls) := by
        simp [CheckDeletion, hdel, hfin, hc]
      rw [hcd] at habs
      simp only at habs
      rw [habs] at hfin
      exact absurd hfin (by simp)
    | panicked m =>
      have hcd : CheckDeletion env g owner repo = (GoResult.panicked m, g, closeCalls) := by
        simp [CheckDeletion, hdel, hfin, hc]
      rw [hcd] at habs
      simp only at habs
      rw [habs] at hfin
      exact absurd hfin (by simp)

/-- C4 witness: a deleting resource whose close attempt fails because the
issue listing fails keeps its finalizer and surfaces the listing error. -/
theorem finalizer_kept_when_closeIssue_fails_witness :
    CheckDeletion { envBase with listOK := false } { gBase with deletionTimestampSet := true }
        "owner" "repo" =
      (GoResult.err "failed to list all github issues",
        { gBase with deletionTimestampSet := true }, [RemoteCall.list "owner" "repo"]) :=
  ((finalizer_kept_when_closeIssue_fails { envBase with listOK := false }
      { gBase with deletionTimestampSet := true } "owner" "repo" (by decide) (by decide)).1
    "failed to list all github issues" (by decide)).1

/-- C7 amended.  The one-minute requeue is not unconditional: a cycle that
returns without error requeues after 60 seconds, and every cycle that
returns an error requeues after 0 seconds (leaving retry to the
dispatcher's backoff). -/
theorem requeue_minute_iff_no_error (env : Env) (g : GitHubIssue) (r : Nat) (e : Option String)
    (h : (Reconcile env g).1 = GoOutcome.done r e) :
    (e = none ∧ r = 60) ∨ (e ≠ none ∧ r = 0) := by
  unfold Reconcile at h
  cases hp : GetOwnerAndRepo g with
  | none => rw [hp] at h; simp at h
  | some pr =>
    obtain ⟨owner, repo⟩ := pr
    rw [hp] at h
    simp only [] at h
    rcases hcd : CheckDeletion env g owner repo with ⟨cres, updated, calls⟩
    rw [hcd] at h
    cases cres with
    | err msg =>
      simp [errorsIs, errorsUnwrap] at h
      obtain ⟨h1, h2⟩ := h
      exact Or.inr ⟨by simp [← h2], h1.symm⟩
    | panicked m => simp at h
    | ok u =>
      simp only [] at h
      rcases hl : GetRepositoryIssues env owner repo with ⟨lres, listCalls⟩
      rw [hl] at h
      cases lres with
      | err msg =>
        simp at h
        obtain ⟨h1, h2⟩ := h
        exact Or.inr ⟨by simp [← h2], h1.symm⟩
      | panicked m => simp at h
      | ok issues =>
        simp only [] at h
        rcases hh : HandleIssues env (FindIssue issues updated) owner repo updated with
          ⟨hres, handleCalls⟩
        rw [hh] at h
        cases hres with
        | err msg =>
          simp at h
          obtain ⟨h1, h2⟩ := h
          exact Or.inr ⟨by simp [← h2], h1.symm⟩
        | panicked m => simp at h
        | ok handled =>
          simp only [] at h
          cases hcc : CreateConditions env.now handled with
          | panicked m => rw [hcc] at h; simp at h
          | err msg =>
            rw [hcc] at h
            simp at h
            obtain ⟨h1, h2⟩ := h
            exact Or.inr ⟨by simp [← h2], h1.symm⟩
          | ok conds =>
            rw [hcc] at h
            simp only [] at h
            by_cases hs : env.statusUpdateOK = true
            · rw [if_pos hs] at h
              simp at h
              exact Or.inl ⟨h.2.symm, h.1.symm⟩
            · rw [if_neg hs] at h
              simp at h
              obtain ⟨h1, h2⟩ := h
              exact Or.inr ⟨by simp [← h2], h1.symm⟩

/-- C7 amended witness: the successful creating cycle requeues after one
minute, instantiating the characterization at a concrete input. -/
theorem requeue_minute_iff_no_error_witness :
    ((none : Option String) = none ∧ 60 = 60) ∨ ((none : Option String) ≠ none ∧ 60 = 0) :=
  requeue_minute_iff_no_error envBase gBase 60 none (by decide)

/-- C8 amended.  Matching is state-blind: for any remote issue — whatever
its `state` field holds — whose title matches the resource's title and
whose body equals the description, `FindIssue` returns it, the cycle makes
no create, update, reopen or close call (only the list call appears in the
trace), and external closure is neither corrected nor reported; but instead
of deriving `OpenIssue = true`, condition derivation panics on the nil
no-op result. -/
theorem title_only_match_noop_then_panic (env : Env) (g : GitHubIssue)
    (issue : IssueResponse) (owner repo : String)
    (htitle : issue.title = g.spec.title)
    (hbody : issue.body = g.spec.description)
    (hdel : g.deletionTimestampSet = false)
    (hfin : containsFinalizer g = true)
    (hiss : env.issues = [issue])
    (hlist : env.listOK = true)
    (hparse : GetOwnerAndRepo g = some (owner, repo)) :
    FindIssue env.issues g = some issue ∧
    Reconcile env g =
      (GoOutcome.panicked "invalid memory address or nil pointer dereference", g,
        [RemoteCall.list owner repo]) := by
  have hfind : FindIssue env.issues g = some issue := by
    simp [FindIssue, hiss, htitle]
  refine ⟨hfind, ?_⟩
  rw [hiss] at hfind
  simp [Reconcile, hparse, CheckDeletion, hdel, hfin, GetRepositoryIssues, hlist, hiss,
    HandleIssues, hfind, hbody, CreateConditions]

/-- C8 amended witness: the state-blind no-op applied to the concrete
closed remote issue. -/
theorem title_only_match_noop_then_panic_witness :
    FindIssue ({ envBase with issues := [issueClosedTD] } : Env).issues gBase =
        some issueClosedTD ∧
    Reconcile { envBase with issues := [issueClosedTD] } gBase =
      (GoOutcome.panicked "invalid memory address or nil pointer dereference", gBase,
        [RemoteCall.list "owner" "repo"]) :=
  title_only_match_noop_then_panic { envBase with issues := [issueClosedTD] } gBase issueClosedTD
    "owner" "repo" (by decide) (by decide) (by decide) (by decide) (by decide) (by decide)
    (by decide)

/-- C9.  `GetOwnerAndRepo` takes the last two slash-separated segments:
every repo string containing at least one slash is accepted without error,
and for a string of the form lead/a/b with slash-free final segments a and
b (the lead may itself contain further slashes, as in a full URL) the
result is exactly (a, b), with every leading segment ignored and no
validation of the two components. -/
theorem getOwnerAndRepo_last_two_segments :
    (∀ g : GitHubIssue, '/' ∈ g.spec.repo.toList →
        ∃ ownerRepo : String × String, GetOwnerAndRepo g = some ownerRepo) ∧
    (∀ (lead a b : List Char) (t d : String) (dts : Bool)
        (fins : List String) (conds : List Condition),
        '/' ∉ a → '/' ∉ b →
        GetOwnerAndRepo
          { spec := { repo := String.mk (lead ++ '/' :: (a ++ '/' :: b)), title := t,
                      description := d },
            deletionTimestampSet := dts, finalizers := fins, statusConditions := conds } =
          some (String.mk a, String.mk b)) := by
  constructor
  · intro g hg
    have h2 := two_le_length_splitOnSlash _ hg
    have h2r : 2 ≤ (splitOnSlash g.spec.repo.toList).reverse.length := by
      simpa using h2
    obtain ⟨x, y, t, ht⟩ := exists_cons_cons_of_two_le_length _ h2r
    refine ⟨(String.mk y, String.mk x), ?_⟩
    simp only [GetOwnerAndRepo]
    rw [ht]
  · intro lead a b t d dts fins conds ha hb
    have hrepo : (String.mk (lead ++ '/' :: (a ++ '/' :: b))).toList
        = lead ++ '/' :: (a ++ '/' :: b) := rfl
    simp only [GetOwnerAndRepo, hrepo, splitOnSlash_append,
      splitOnSlash_eq_self_of_not_mem a ha, splitOnSlash_eq_self_of_not_mem b hb,
      List.reverse_append, List.reverse_cons, List.reverse_nil]
    simp

/-- C9 witness: the full-URL example, whose leading scheme and host
segments are ignored. -/
theorem getOwnerAndRepo_last_two_segments_witness :
    GetOwnerAndRepo
      { spec := { repo := String.mk ("https://github.com".toList ++
                    '/' :: ("owner".toList ++ '/' :: "repo".toList)),
                  title := "T", description := "D" },
        deletionTimestampSet := false, finalizers := [], statusConditions := [] } =
      some (String.mk "owner".toList, String.mk "repo".toList) :=
  (getOwnerAndRepo_last_two_segments).2 "https://github.com".toList "owner".toList
    "repo".toList "T" "D" false [] [] (by decide) (by decide)

/-- Contrast for the timestamp-churn defect: the repo's own
`updateConditions` variant (src/unnamed/part_005) keeps both last-transition
timestamps when the boolean statuses are unchanged, which is the behaviour
the spec demands of the status write-back. -/
theorem updateConditions_keeps_timestamps_when_unchanged :
    (updateConditions 5 gAfterCreate none).statusConditions.map
        (fun c => c.lastTransitionTime) = [1, 1] ∧
    (updateConditions 5 gAfterCreate none).statusConditions.map
        (fun c => (c.condType, c.status)) = [("OpenIssue", true), ("IssueHasPR", false)] := by
  decide

end GithubOperator
